import Mathlib

/-!
Shallow embedding of the payment-gated NFT minting pipeline of the
`tgminitest` backend (`src/backend/app`): the payment ledger
(`app/services/payment_service.py`), the mint orchestrator
(`app/services/ton/nft_service.py`), the mint-confirmation endpoint
(`app/api/v1/endpoints/nft.py`) and the scoring engine
(`app/services/quiz_service.py`).  Database rows are modelled as Lean
structures, sessions as explicit state passing, exceptions as `Except`.
-/

namespace TgMini

/-- A row of the `payments` table (`app/models/result.py`, class `Payment`).
Timestamps are modelled as natural numbers. -/
structure Payment where
  id : Nat
  user_id : Nat
  result_id : Nat
  amount : Int
  currency : String
  status : String
  provider : String
  provider_payment_id : Option String
  telegram_payment_charge_id : Option String
  paid_at : Option Nat
deriving Repr, DecidableEq

/-- `PaymentService.handle_successful_payment` (payment_service.py lines
236-268), restricted to the state it performs on the fetched `Payment` row:
if the status is already `"paid"` the row is returned unchanged; otherwise
the status becomes `"paid"`, both charge ids are stored, and `paid_at` is
set to the current time only when it is not already set. -/
def handle_successful_payment (p : Payment) (tg_charge provider_charge : String)
    (now : Nat) : Payment :=
  if p.status = "paid" then p
  else
    { p with
      status := "paid"
      telegram_payment_charge_id := some tg_charge
      provider_payment_id := some provider_charge
      paid_at := match p.paid_at with
        | none => some now
        | some t => some t }

/-- `PaymentService.mark_payment_failed` (payment_service.py lines 274-295):
the fetched row's status is set to `"failed"` unconditionally. -/
def mark_payment_failed (p : Payment) : Payment :=
  { p with status := "failed" }

/-- `PaymentService.refund_payment` (payment_service.py lines 297-329): only
a row in status `"paid"` may move to `"refunded"`; any other status raises
`ValueError`. -/
def refund_payment (p : Payment) : Except String Payment :=
  if p.status ≠ "paid" then
    .error ("Cannot refund payment in status " ++ p.status ++
      ". Only paid payments can be refunded.")
  else
    .ok { p with status := "refunded" }

/-- A row of the `mint_transactions` table (`app/models/result.py`, class
`MintTransaction`). -/
structure MintTx where
  id : Nat
  result_id : Nat
  user_id : Nat
  status : String
  nft_address : Option String
  transaction_hash : Option String
  ipfs_hash : Option String
  error_message : Option String
  retry_count : Nat
deriving Repr, DecidableEq

/-- The status values enumerated by the source's own model documentation
(`app/models/result.py` line 79: `# pending, uploading_image,
uploading_metadata, minting, completed, failed`). -/
def allowedStatuses : List String :=
  ["pending", "uploading_image", "uploading_metadata", "minting", "completed", "failed"]

/-- A row of the `nft_metadata` table (`app/models/result.py`, class
`NFTMetadata`); `result_id` carries a unique constraint. -/
structure NFTMetadataRow where
  result_id : Nat
  name : String
  description : String
  image_url : String
  metadata_url : String
deriving Repr, DecidableEq

/-- `StorageService.get_ipfs_url` (storage_service.py): gateway URL for an
IPFS hash. -/
def get_ipfs_url (ipfs_hash : String) : String :=
  "https://gateway.pinata.cloud/ipfs/" ++ ipfs_hash

/-- The response-handling branch of `StorageService.upload_image`
(storage_service.py lines 65-79): a non-200 provider response raises
`Exception("Failed to upload image: " + error_text)`, a 200 response
yields the returned IPFS hash. -/
def upload_image_result (respStatus : Nat) (respText : String)
    (ipfsHash : String) : Except String String :=
  if respStatus ≠ 200 then .error ("Failed to upload image: " ++ respText)
  else .ok ipfsHash

/-- Outcomes of the external collaborators invoked by one mint attempt
(`NFTService.mint_nft`): image generation, the two storage uploads,
metadata validation, wallet health, and the chain-assigned address. -/
structure MintEnv where
  imageData : Except String Unit
  uploadImage : Except String String
  metadataValid : Bool
  uploadJson : Except String String
  walletHealthy : Bool
  walletError : String
  nftAddress : String
  metaName : String
  metaDescription : String
deriving Repr

/-- Observable effect of one `NFTService.mint_nft` call: the sequence of
statuses stored for the transaction row, the row itself after the call,
the `nft_metadata` row persisted by this attempt (if any), the
`QuizResult.nft_minted` flag after the call (the caller starts a mint only
when it is false, endpoint nft.py line 173), and the returned/raised
result. -/
structure MintOutcome where
  trace : List String
  tx : MintTx
  metaInserted : Option NFTMetadataRow
  nft_minted : Bool
  result : Except String Unit
deriving Repr

/-- Failure exit of `mint_nft` (nft_service.py lines 136-144): the except
branch sets the transaction status to `"failed"`, stores `str(e)` and
commits, then re-raises. -/
def mintFail (tr : List String) (tx : MintTx) (meta : Option NFTMetadataRow)
    (e : String) : MintOutcome :=
  { trace := tr ++ ["failed"]
    tx := { tx with status := "failed", error_message := some e }
    metaInserted := meta
    nft_minted := false
    result := .error e }

/-- `NFTService.mint_nft` (nft_service.py lines 25-144) for a quiz result
`rid` owned by `uid`, with the external-call outcomes given by `env` and
`metadataExists` saying whether an `nft_metadata` row for `rid` already
exists (its unique constraint makes the step-5 insert fail in that case;
the failure status of that one branch is mutated in memory but its commit
cannot complete after the failed flush, so no `"failed"` is recorded in
the trace there). -/
def mint_nft (env : MintEnv) (rid uid : Nat) (metadataExists : Bool) : MintOutcome :=
  let tx0 : MintTx :=
    { id := 0, result_id := rid, user_id := uid, status := "pending"
      nft_address := none, transaction_hash := none, ipfs_hash := none
      error_message := none, retry_count := 0 }
  match env.imageData with
  | .error e => mintFail ["pending"] tx0 none e
  | .ok _ =>
    let tx1 := { tx0 with status := "uploading_image" }
    match env.uploadImage with
    | .error e => mintFail ["pending", "uploading_image"] tx1 none e
    | .ok imageHash =>
      let image_url := get_ipfs_url imageHash
      let tx2 := { tx1 with status := "generating_metadata" }
      if ¬ env.metadataValid then
        mintFail ["pending", "uploading_image", "generating_metadata"] tx2 none
          "Generated metadata is invalid"
      else
        let tx3 := { tx2 with status := "uploading_metadata" }
        match env.uploadJson with
        | .error e =>
          mintFail ["pending", "uploading_image", "generating_metadata",
            "uploading_metadata"] tx3 none e
        | .ok metadataHash =>
          let metadata_url := get_ipfs_url metadataHash
          if metadataExists then
            let eMsg := "UNIQUE constraint failed: nft_metadata.result_id"
            let txF := { tx3 with status := "failed", error_message := some eMsg }
            { trace := ["pending", "uploading_image", "generating_metadata",
                "uploading_metadata"]
              tx := txF
              metaInserted := none
              nft_minted := false
              result := .error eMsg }
          else
            let meta : NFTMetadataRow :=
              { result_id := rid, name := env.metaName
                description := env.metaDescription
                image_url := image_url, metadata_url := metadata_url }
            let tx4 := { tx3 with status := "minting" }
            if ¬ env.walletHealthy then
              mintFail ["pending", "uploading_image", "generating_metadata",
                "uploading_metadata", "minting"] tx4 (some meta)
                ("Wallet unhealthy: " ++ env.walletError)
            else
              let txC := { tx4 with status := "completed", nft_address := some env.nftAddress, transaction_hash := some ("tx_" ++ env.nftAddress), ipfs_hash := some metadataHash }
              { trace := ["pending", "uploading_image", "generating_metadata",
                  "uploading_metadata", "minting", "completed"]
                tx := txC
                metaInserted := some meta
                nft_minted := true
                result := .ok () }

/-- `NFTService.__init__` (nft_service.py line 22): `self.max_retries = 3`. -/
def max_retries : Nat := 3

/-- How a `retry_failed_mint` call ends, before any re-run of the pipeline:
the four exits of nft_service.py lines 224-249. -/
inductive RetryResult where
  | notFound
  | notFailed (st : String)
  | budgetExceeded
  | proceeds
deriving Repr, DecidableEq

/-- The transaction row left behind together with the call's exit. -/
structure RetryOutcome where
  tx : Option MintTx
  result : RetryResult
deriving Repr, DecidableEq

/-- `NFTService.retry_failed_mint` (nft_service.py lines 207-257) up to the
recursive `mint_nft` call: not-found and not-failed raise with the row
untouched; otherwise the row is reset to status `"pending"` with the error
cleared and the retry count incremented, and only then is the budget
checked — exceeding it raises with the row left in that reset state. -/
def retry_failed_mint (mtx : Option MintTx) : RetryOutcome :=
  match mtx with
  | none => { tx := none, result := .notFound }
  | some tx =>
    if tx.status ≠ "failed" then { tx := some tx, result := .notFailed tx.status }
    else
      let tx' := { tx with status := "pending", error_message := none, retry_count := tx.retry_count + 1 }
      if tx'.retry_count > max_retries then { tx := some tx', result := .budgetExceeded }
      else { tx := some tx', result := .proceeds }

/-- The responses of the `POST /mint/confirm` endpoint
(`app/api/v1/endpoints/nft.py`, `confirm_mint_payment`, lines 115-201). -/
inductive MintConfirmDecision where
  | paymentNotFound
  | forbidden
  | paymentNotPaid (st : String)
  | resultNotFound
  | alreadyMinted
  | alreadyInProgress (st : String)
  | startMinting
deriving Repr, DecidableEq

/-- The decision logic of `confirm_mint_payment` (nft.py lines 138-201):
after the payment and ownership checks, an existing mint transaction
blocks a new mint only when its status is in `["pending", "minting"]`
(line 187); only the `startMinting` decision schedules
`mint_nft_background`, which is what creates a new `MintTransaction`
row. -/
def confirm_mint_payment (payment : Option Payment) (current_user_id : Nat)
    (quiz_result_minted : Option Bool) (existing_tx : Option MintTx) :
    MintConfirmDecision :=
  match payment with
  | none => .paymentNotFound
  | some p =>
    if p.user_id ≠ current_user_id then .forbidden
    else if p.status ≠ "paid" then .paymentNotPaid p.status
    else
      match quiz_result_minted with
      | none => .resultNotFound
      | some minted =>
        if minted then .alreadyMinted
        else
          match existing_tx with
          | some tx =>
            if tx.status = "pending" ∨ tx.status = "minting" then
              .alreadyInProgress tx.status
            else .startMinting
          | none => .startMinting

/-- An `Answer` row (`app/models/quiz.py`): id, result-category tag and
integer weight. -/
structure Answer where
  id : Nat
  result_type : String
  weight : Int
deriving Repr, DecidableEq

/-- The `answer_map` dict of `calculate_result` (quiz_service.py lines
75-79), built by assignment in traversal order over the quiz's flattened
answers, so for a duplicated id the last occurrence wins. -/
def answer_map (answers : List Answer) (i : Nat) : Option Answer :=
  answers.reverse.find? (fun a => a.id == i)

/-- One `scores[answer.result_type] += answer.weight` update on the
insertion-ordered `defaultdict` (quiz_service.py line 90): an existing key
is updated in place, a new key is appended at the end. -/
def addScore : List (String × Int) → String → Int → List (String × Int)
  | [], k, w => [(k, w)]
  | (k', v) :: rest, k, w =>
    if k' = k then (k', v + w) :: rest else (k', v) :: addScore rest k w

/-- The accumulation loop of `calculate_result` (quiz_service.py lines
87-90) over the supplied answer-id list, with no deduplication. -/
def calcScores (amap : Nat → Answer) (ids : List Nat) : List (String × Int) :=
  ids.foldl (fun sc i => addScore sc (amap i).result_type (amap i).weight) []

/-- CPython `max(scores, key=scores.get)` over an insertion-ordered dict
(quiz_service.py line 96): scan keeping the current best, replacing only
on a strictly greater value, so the first key attaining the maximum
wins. -/
def maxFold (e : String × Int) (l : List (String × Int)) : String × Int :=
  l.foldl (fun best x => if x.2 > best.2 then x else best) e

/-- `max` over the scores dict, `none` on an empty dict (the
`if not scores` branch of quiz_service.py line 93). -/
def maxEntry : List (String × Int) → Option (String × Int)
  | [] => none
  | e :: rest => some (maxFold e rest)

/-- The total answer map of a quiz as a function (defaulting on ids that
the validation step has already excluded). -/
def amapOf (questions : List (List Answer)) : Nat → Answer :=
  fun i => (answer_map questions.flatten i).getD ⟨0, "", 0⟩

/-- `calculate_result` (quiz_service.py lines 52-103): the quiz is its
questions' answer lists; invalid ids raise `ValueError`, an empty
accumulation raises `ValueError("No answers provided")`, otherwise the
winning category is returned with its accumulated score. -/
def calculate_result (questions : List (List Answer)) (answer_ids : List Nat) :
    Except String (String × Int) :=
  if answer_ids.any (fun i => (answer_map questions.flatten i).isNone) then
    .error "Invalid answer IDs for this quiz"
  else
    match maxEntry (calcScores (amapOf questions) answer_ids) with
    | none => .error "No answers provided"
    | some (c, s) => .ok (c, s)

/-- The predicate of the partial unique index
`ix_payments_result_id_unique_active` (alembic migration 003 lines 24-30):
an active payment for `rid` is one with that result id and status
`pending` or `paid`. -/
def isActiveFor (rid : Nat) (p : Payment) : Bool :=
  p.result_id == rid && (p.status == "pending" || p.status == "paid")

/-- The `payments` table plus the id sequence. -/
structure PaymentDB where
  payments : List Payment
  nextId : Nat
deriving Repr

/-- The rows matched by the active-payment query of
`PaymentService.create_mint_payment` (payment_service.py lines 69-72). -/
def activePays (db : PaymentDB) (rid : Nat) : List Payment :=
  db.payments.filter (isActiveFor rid)

/-- `session.scalar` on that query: the first matching row, if any. -/
def queryActive (db : PaymentDB) (rid : Nat) : Option Payment :=
  (activePays db rid).head?

/-- The `Payment` constructed by `create_mint_payment` for the
`telegram_stars` provider (payment_service.py lines 81-97), amount
`settings.NFT_MINT_PRICE_STARS` (config.py line 89, default 10). -/
def newPayment (db : PaymentDB) (uid rid : Nat) : Payment :=
  { id := db.nextId, user_id := uid, result_id := rid, amount := 10
    currency := "STARS", status := "pending", provider := "telegram_stars"
    provider_payment_id := none, telegram_payment_charge_id := none
    paid_at := none }

/-- The guarded insert (`session.add` + `flush`, payment_service.py lines
99-108) under the partial unique index: it persists the new row only when
no active payment for `rid` exists; otherwise the flush raises
`IntegrityError` and the subsequent rollback leaves the table unchanged. -/
def tryInsert (db : PaymentDB) (uid rid : Nat) : PaymentDB × Option Payment :=
  if (activePays db rid).isEmpty then
    let p := newPayment db uid rid
    ({ payments := db.payments ++ [p], nextId := db.nextId + 1 }, some p)
  else (db, none)

/-- Control point of one in-flight `create_mint_payment` call for a fixed
result: before the pre-check query, between the pre-check and the insert,
finished (carrying the returned row), or terminated by the re-raise of
`IntegrityError` (payment_service.py line 124). -/
inductive CallPhase where
  | start
  | readyInsert
  | raised
  | done (ret : Payment)
deriving Repr, DecidableEq

/-- One atomic database interaction of a `create_mint_payment` call
(payment_service.py lines 68-124): the pre-check query returns an existing
active payment or moves on to the insert; the insert either persists and
returns the new row, or hits the unique index, rolls back, re-queries and
returns the winner, re-raising only if even the re-query finds nothing. -/
def stepCall (uid rid : Nat) (db : PaymentDB) : CallPhase → PaymentDB × CallPhase
  | .start =>
    match queryActive db rid with
    | some p => (db, .done p)
    | none => (db, .readyInsert)
  | .readyInsert =>
    match tryInsert db uid rid with
    | (db', some p) => (db', .done p)
    | (db', none) =>
      match queryActive db' rid with
      | some p => (db', .done p)
      | none => (db', .raised)
  | .raised => (db, .raised)
  | .done p => (db, .done p)

/-- Interleaving semantics of N concurrent `create_mint_payment` calls for
the same result id: a scheduler picks any call and runs its next atomic
database interaction. -/
inductive PayStep (uid rid : Nat) :
    PaymentDB × List CallPhase → PaymentDB × List CallPhase → Prop
  | mk (db : PaymentDB) (phases : List CallPhase) (i : Nat) (ph : CallPhase)
      (hi : phases.get? i = some ph) :
      PayStep uid rid (db, phases)
        ((stepCall uid rid db ph).1, phases.set i (stepCall uid rid db ph).2)

/-- Any number of interleaved scheduler steps. -/
def PayReaches (uid rid : Nat) :
    PaymentDB × List CallPhase → PaymentDB × List CallPhase → Prop :=
  Relation.ReflTransGen (PayStep uid rid)

/-! Sample rows used by witnesses and counterexamples. -/

/-- A pending Stars payment row. -/
def samplePayment : Payment :=
  { id := 1, user_id := 2, result_id := 3, amount := 10, currency := "STARS"
    status := "pending", provider := "telegram_stars"
    provider_payment_id := none, telegram_payment_charge_id := none
    paid_at := none }

/-- A failed mint transaction that already used all three retries. -/
def sampleFailedTx : MintTx :=
  { id := 9, result_id := 3, user_id := 2, status := "failed"
    nft_address := none, transaction_hash := none, ipfs_hash := none
    error_message := some "IPFS upload failed", retry_count := 3 }

/-- A mint transaction midway through the image upload step. -/
def sampleUploadingTx : MintTx :=
  { id := 9, result_id := 3, user_id := 2, status := "uploading_image"
    nft_address := none, transaction_hash := none, ipfs_hash := none
    error_message := none, retry_count := 0 }

/-- An environment in which every external collaborator succeeds. -/
def okEnv : MintEnv :=
  { imageData := .ok (), uploadImage := .ok "QmImg", metadataValid := true
    uploadJson := .ok "QmMeta", walletHealthy := true, walletError := ""
    nftAddress := "EQD...2", metaName := "Test NFT", metaDescription := "desc" }

/-! ## C4: repeated payment confirmation is a no-op -/

/-- C4: for a pending payment, `handle_successful_payment` marks it paid,
and a second call with the same charge ids returns the record unchanged,
so `paid_at` keeps exactly the value set by the first call. -/
theorem confirmPayment_idempotent (p : Payment) (tg ch : String) (t1 t2 : Nat)
    (h : p.status = "pending") :
    (handle_successful_payment p tg ch t1).status = "paid" ∧
    handle_successful_payment (handle_successful_payment p tg ch t1) tg ch t2
      = handle_successful_payment p tg ch t1 ∧
    (handle_successful_payment (handle_successful_payment p tg ch t1) tg ch t2).paid_at
      = (handle_successful_payment p tg ch t1).paid_at := by
  simp [handle_successful_payment, h]

/-- Witness for `confirmPayment_idempotent` at a concrete pending payment. -/
theorem confirmPayment_idempotent_witness :
    (handle_successful_payment samplePayment "tg_1" "pr_1" 5).status = "paid" ∧
    handle_successful_payment (handle_successful_payment samplePayment "tg_1" "pr_1" 5) "tg_1" "pr_1" 7
      = handle_successful_payment samplePayment "tg_1" "pr_1" 5 ∧
    (handle_successful_payment (handle_successful_payment samplePayment "tg_1" "pr_1" 5) "tg_1" "pr_1" 7).paid_at
      = (handle_successful_payment samplePayment "tg_1" "pr_1" 5).paid_at :=
  confirmPayment_idempotent samplePayment "tg_1" "pr_1" 5 7 rfl

/-! ## C3: which status transitions the ledger operations really perform -/

/-- C3 counterexample: a refunded payment is mutated again by
`mark_payment_failed` (refunded→failed), and a failed payment is mutated
again by `handle_successful_payment` (failed→paid), contradicting the
claim that failed/refunded rows are never touched. -/
theorem payment_refunded_mutated_counterexample :
    (mark_payment_failed { samplePayment with status := "refunded" }).status = "failed" ∧
    mark_payment_failed { samplePayment with status := "refunded" }
      ≠ { samplePayment with status := "refunded" } ∧
    (handle_successful_payment { samplePayment with status := "failed" } "tg" "pr" 0).status
      = "paid" := by
  decide

/-- C3 amended: `handle_successful_payment` moves any non-paid payment
(including failed and refunded) to paid and leaves a paid one unchanged;
`mark_payment_failed` sets any payment (including paid and refunded) to
failed; only `refund_payment` guards its transition, succeeding exactly
from paid. -/
theorem payment_transitions_actual (p : Payment) (tg ch : String) (now : Nat) :
    (mark_payment_failed p).status = "failed" ∧
    (p.status ≠ "paid" → (handle_successful_payment p tg ch now).status = "paid") ∧
    (p.status = "paid" → handle_successful_payment p tg ch now = p) ∧
    (p.status = "paid" → refund_payment p = .ok { p with status := "refunded" }) ∧
    (p.status ≠ "paid" → refund_payment p =
      .error ("Cannot refund payment in status " ++ p.status ++
        ". Only paid payments can be refunded.")) := by
  refine ⟨rfl, ?_, ?_, ?_, ?_⟩ <;> intro h <;>
    simp [handle_successful_payment, refund_payment, h]

/-- Witness for `payment_transitions_actual` at concrete payments. -/
theorem payment_transitions_actual_witness :
    (handle_successful_payment { samplePayment with status := "failed" } "a" "b" 0).status = "paid" ∧
    refund_payment { samplePayment with status := "paid" }
      = .ok { samplePayment with status := "refunded" } := by
  constructor
  · exact (payment_transitions_actual { samplePayment with status := "failed" } "a" "b" 0).2.1
      (by decide)
  · exact (payment_transitions_actual { samplePayment with status := "paid" } "a" "b" 0).2.2.2.1 rfl

/-! ## C5: the stored mint statuses -/

/-- C5 (code bug): a successful mint attempt stores the status
`"generating_metadata"` between `uploading_image` and
`uploading_metadata` (nft_service.py line 73), a value outside the status
set documented by the model itself (result.py line 79) and outside the
claimed progression. -/
theorem mint_stores_generating_metadata :
    (mint_nft okEnv 3 2 false).trace =
      ["pending", "uploading_image", "generating_metadata",
        "uploading_metadata", "minting", "completed"] ∧
    "generating_metadata" ∈ (mint_nft okEnv 3 2 false).trace ∧
    "generating_metadata" ∉ allowedStatuses := by
  decide

/-! ## C6: the retry budget check happens after the reset -/

/-- C6 counterexample: retrying a failed transaction whose retry count
already equals the maximum raises the budget error, but the transaction is
left with status `"pending"` (reset before the check), not `"failed"`. -/
theorem retryMint_budget_counterexample :
    (retry_failed_mint (some sampleFailedTx)).result = .budgetExceeded ∧
    ((retry_failed_mint (some sampleFailedTx)).tx.map (fun t => t.status))
      = some "pending" ∧
    ((retry_failed_mint (some sampleFailedTx)).tx.map (fun t => t.status))
      ≠ some "failed" := by
  decide

/-- C6 amended: `retry_failed_mint` raises not-found/not-failed errors with
the row untouched; on a failed row it first resets status to pending,
clears the error and increments the retry count, and only then checks the
budget — when the incremented count exceeds `max_retries` (3) it raises
the maximum-retries error leaving the row in that reset (pending) state;
within budget it proceeds to re-run the pipeline from the reset state. -/
theorem retryMint_budget_leaves_pending (tx : MintTx) :
    retry_failed_mint none = { tx := none, result := .notFound } ∧
    (tx.status ≠ "failed" →
      retry_failed_mint (some tx) = { tx := some tx, result := .notFailed tx.status }) ∧
    (tx.status = "failed" → tx.retry_count + 1 > max_retries →
      retry_failed_mint (some tx) =
        { tx := some { tx with status := "pending", error_message := none, retry_count := tx.retry_count + 1 }, result := .budgetExceeded }) ∧
    (tx.status = "failed" → tx.retry_count + 1 ≤ max_retries →
      retry_failed_mint (some tx) =
        { tx := some { tx with status := "pending", error_message := none, retry_count := tx.retry_count + 1 }, result := .proceeds }) := by
  refine ⟨rfl, ?_, ?_, ?_⟩
  · intro h
    simp [retry_failed_mint, h]
  · intro h hb
    simp [retry_failed_mint, h, hb]
  · intro h hb
    simp [retry_failed_mint, h, Nat.not_lt.mpr hb]

/-- Witness for `retryMint_budget_leaves_pending` at the exhausted
transaction. -/
theorem retryMint_budget_leaves_pending_witness :
    retry_failed_mint (some sampleFailedTx) =
      { tx := some { sampleFailedTx with status := "pending", error_message := none, retry_count := 4 }, result := .budgetExceeded } :=
  (retryMint_budget_leaves_pending sampleFailedTx).2.2.1 rfl (by decide)

/-! ## C1: which existing transactions block a second mint request -/

/-- C1 counterexample: with a valid paid payment and an existing mint
transaction in the non-terminal, non-failed status `"uploading_image"`,
the confirm endpoint does not refuse — it starts another mint instead of
answering "already in progress". -/
theorem mintGuard_uploadingImage_counterexample :
    sampleUploadingTx.status = "uploading_image" ∧
    confirm_mint_payment (some { samplePayment with status := "paid" }) 2
      (some false) (some sampleUploadingTx) = .startMinting := by
  decide

/-- C1 amended: after the payment, ownership and minted checks, an
existing mint transaction is answered with "already in progress" (and no
new row is created) exactly when its status is `"pending"` or
`"minting"`; for any other status — `uploading_image` and
`uploading_metadata` included — the request is not refused and another
mint attempt is scheduled. -/
theorem mintGuard_onlyPendingMinting (p : Payment) (user : Nat) (tx : MintTx)
    (hp : p.status = "paid") (hu : p.user_id = user) :
    (confirm_mint_payment (some p) user (some false) (some tx)
        = .alreadyInProgress tx.status
      ↔ (tx.status = "pending" ∨ tx.status = "minting")) ∧
    (¬ (tx.status = "pending" ∨ tx.status = "minting") →
      confirm_mint_payment (some p) user (some false) (some tx) = .startMinting) := by
  constructor
  · constructor
    · intro hdec
      by_contra hnot
      simp [confirm_mint_payment, hp, hu, hnot] at hdec
    · intro hst
      simp [confirm_mint_payment, hp, hu, hst]
  · intro hnot
    simp [confirm_mint_payment, hp, hu, hnot]

/-- Witness for `mintGuard_onlyPendingMinting` at a pending transaction. -/
theorem mintGuard_onlyPendingMinting_witness :
    confirm_mint_payment (some { samplePayment with status := "paid" }) 2
      (some false) (some { sampleUploadingTx with status := "pending" })
      = .alreadyInProgress "pending" := by
  have h := mintGuard_onlyPendingMinting { samplePayment with status := "paid" } 2
    { sampleUploadingTx with status := "pending" } rfl rfl
  exact h.1.mpr (Or.inl rfl)

/-! ## C7: a failing step marks the transaction failed and re-raises -/

/-- The provider-prefixed upload error text is never empty. -/
theorem upload_error_message_ne_empty (s : String) :
    "Failed to upload image: " ++ s ≠ "" := by
  intro heq
  have hlen := congrArg String.length heq
  have h24 : ("Failed to upload image: ").length = 24 := rfl
  rw [String.length_append, h24] at hlen
  simp at hlen

/-- C7: whenever a mint attempt ends in a raised error, the in-flight
transaction is left with status `"failed"`, the error text stored, and
`QuizResult.nft_minted` still false; in particular a non-200 storage
response at the image-upload step does exactly that, with the non-empty
message `"Failed to upload image: "` plus the provider's error text. -/
theorem mint_failure_records_error_and_reraises (env : MintEnv) (me : Bool)
    (rid uid : Nat) (respStatus : Nat) (respText ipfsHash : String)
    (h : respStatus ≠ 200) (himg : env.imageData = .ok ()) :
    (∀ e, (mint_nft env rid uid me).result = .error e →
      (mint_nft env rid uid me).tx.status = "failed" ∧
      (mint_nft env rid uid me).tx.error_message = some e ∧
      (mint_nft env rid uid me).nft_minted = false) ∧
    ((mint_nft { env with uploadImage := upload_image_result respStatus respText ipfsHash } rid uid me).tx.status = "failed" ∧
      (mint_nft { env with uploadImage := upload_image_result respStatus respText ipfsHash } rid uid me).tx.error_message
        = some ("Failed to upload image: " ++ respText) ∧
      ("Failed to upload image: " ++ respText) ≠ "" ∧
      (mint_nft { env with uploadImage := upload_image_result respStatus respText ipfsHash } rid uid me).result
        = .error ("Failed to upload image: " ++ respText) ∧
      (mint_nft { env with uploadImage := upload_image_result respStatus respText ipfsHash } rid uid me).nft_minted = false) := by
  constructor
  · intro e he
    rcases env with ⟨img, upl, valid, upj, wh, we, addr, mn, md⟩
    cases img <;> cases upl <;> cases upj <;> cases valid <;> cases wh <;>
      cases me <;> simp_all [mint_nft, mintFail]
  · have hupl : upload_image_result respStatus respText ipfsHash
        = .error ("Failed to upload image: " ++ respText) := by
      simp [upload_image_result, h]
    refine ⟨?_, ?_, upload_error_message_ne_empty respText, ?_, ?_⟩ <;>
      simp [mint_nft, mintFail, himg, hupl]

/-- Witness for `mint_failure_records_error_and_reraises` at a concrete
non-200 storage response. -/
theorem mint_failure_records_error_witness :
    (mint_nft { okEnv with uploadImage := upload_image_result 500 "Service unavailable" "QmX" } 3 2 false).tx.status = "failed" ∧
    (mint_nft { okEnv with uploadImage := upload_image_result 500 "Service unavailable" "QmX" } 3 2 false).tx.error_message
      = some ("Failed to upload image: " ++ "Service unavailable") ∧
    (mint_nft { okEnv with uploadImage := upload_image_result 500 "Service unavailable" "QmX" } 3 2 false).nft_minted = false := by
  have hw := mint_failure_records_error_and_reraises okEnv false 3 2 500
    "Service unavailable" "QmX" (by decide) rfl
  exact ⟨hw.2.1, hw.2.2.1, hw.2.2.2.2.2⟩

/-! ## Scoring lemmas (C8, C10) -/

/-- The value stored for key `c` in the scores dict (its first — and, by
construction, only — entry with that key), 0 when absent
(`defaultdict(int)` semantics). -/
def scoreVal : List (String × Int) → String → Int
  | [], _ => 0
  | e :: rest, c => if e.1 = c then e.2 else scoreVal rest c

/-- One `+=` update changes exactly the updated key, adding its weight. -/
theorem scoreVal_addScore (sc : List (String × Int)) (k : String) (w : Int)
    (c : String) :
    scoreVal (addScore sc k w) c = scoreVal sc c + (if c = k then w else 0) := by
  induction sc with
  | nil =>
    by_cases hck : c = k
    · subst hck
      simp [addScore, scoreVal]
    · have hkc : ¬ k = c := fun hh => hck hh.symm
      simp [addScore, scoreVal, hck, hkc]
  | cons hd tl ih =>
    by_cases h1 : hd.1 = k
    · by_cases hck : c = k
      · subst hck
        simp [addScore, scoreVal, h1]
      · have h2 : ¬ hd.1 = c := by
          rw [h1]
          exact fun hh => hck hh.symm
        have hkc : ¬ k = c := fun hh => hck hh.symm
        simp [addScore, scoreVal, h1, h2, hck, hkc]
    · by_cases h2 : hd.1 = c
      · have hck : ¬ c = k := fun hh => h1 (h2.trans hh)
        simp [addScore, scoreVal, h1, h2, hck]
      · simp [addScore, scoreVal, h1, h2, ih]

/-- `addScore` never yields an empty dict. -/
theorem addScore_ne_nil (sc : List (String × Int)) (k : String) (w : Int) :
    addScore sc k w ≠ [] := by
  cases sc with
  | nil => simp [addScore]
  | cons hd tl =>
    by_cases h : hd.1 = k <;> simp [addScore, h]

/-- The accumulation loop over a nonempty dict stays nonempty. -/
theorem calcScoresAux_ne_nil (amap : Nat → Answer) (ids : List Nat)
    (sc : List (String × Int)) (h : sc ≠ []) :
    ids.foldl (fun sc i => addScore sc (amap i).result_type (amap i).weight) sc ≠ [] := by
  induction ids generalizing sc with
  | nil => simpa
  | cons i rest ih =>
    exact ih _ (addScore_ne_nil _ _ _)

/-- A nonempty answer list accumulates a nonempty scores dict. -/
theorem calcScores_ne_nil (amap : Nat → Answer) (ids : List Nat) (h : ids ≠ []) :
    calcScores amap ids ≠ [] := by
  cases ids with
  | nil => exact absurd rfl h
  | cons i rest =>
    unfold calcScores
    rw [List.foldl_cons]
    exact calcScoresAux_ne_nil amap rest _ (addScore_ne_nil _ _ _)

/-- The Python-`max` scan: the result bounds every scanned entry and the
accumulator, and is either the accumulator itself or sits in the list
strictly after every entry of equal-or-higher value seen before it. -/
theorem maxFold_spec (l : List (String × Int)) (acc : String × Int) :
    (∀ x ∈ l, x.2 ≤ (maxFold acc l).2) ∧ acc.2 ≤ (maxFold acc l).2 ∧
    (maxFold acc l = acc ∨
      ∃ l₁ l₂, l = l₁ ++ (maxFold acc l) :: l₂ ∧
        (∀ x ∈ l₁, x.2 < (maxFold acc l).2) ∧ acc.2 < (maxFold acc l).2) := by
  induction l generalizing acc with
  | nil => simp [maxFold]
  | cons x l ih =>
    have hstep : maxFold acc (x :: l) = maxFold (if x.2 > acc.2 then x else acc) l := rfl
    by_cases hx : x.2 > acc.2
    · rw [hstep, if_pos hx]
      obtain ⟨h1, h2, h3⟩ := ih x
      refine ⟨?_, le_trans (le_of_lt hx) h2, ?_⟩
      · intro y hy
        rcases List.mem_cons.mp hy with rfl | hy
        · exact h2
        · exact h1 y hy
      · rcases h3 with heq | ⟨l₁, l₂, hsplit, hlt, hacclt⟩
        · right
          refine ⟨[], l, ?_, by simp, ?_⟩
          · rw [heq]
            exact (List.nil_append _).symm
          · rw [heq]
            exact hx
        · right
          refine ⟨x :: l₁, l₂, congrArg (List.cons x) hsplit, ?_, lt_trans hx hacclt⟩
          intro y hy
          rcases List.mem_cons.mp hy with rfl | hy
          · exact hacclt
          · exact hlt y hy
    · rw [hstep, if_neg hx]
      push_neg at hx
      obtain ⟨h1, h2, h3⟩ := ih acc
      refine ⟨?_, h2, ?_⟩
      · intro y hy
        rcases List.mem_cons.mp hy with rfl | hy
        · exact le_trans hx h2
        · exact h1 y hy
      · rcases h3 with heq | ⟨l₁, l₂, hsplit, hlt, hacclt⟩
        · exact Or.inl heq
        · right
          refine ⟨x :: l₁, l₂, congrArg (List.cons x) hsplit, ?_, hacclt⟩
          intro y hy
          rcases List.mem_cons.mp hy with rfl | hy
          · exact lt_of_le_of_lt hx hacclt
          · exact hlt y hy

/-- Accumulating over `ids` starting from `sc` adds, per category, the
weights of all its occurrences in `ids`. -/
theorem calcScores_foldl_val (amap : Nat → Answer) (ids : List Nat)
    (sc : List (String × Int)) (c : String) :
    scoreVal (ids.foldl (fun sc i => addScore sc (amap i).result_type (amap i).weight) sc) c
      = scoreVal sc c +
        ((ids.filter (fun i => (amap i).result_type == c)).map
          (fun i => (amap i).weight)).sum := by
  induction ids generalizing sc with
  | nil => simp
  | cons i rest ih =>
    rw [List.foldl_cons, ih, scoreVal_addScore]
    by_cases h : (amap i).result_type = c
    · have hb : ((amap i).result_type == c) = true := by simp [h]
      rw [if_pos h.symm, List.filter_cons, hb]
      simp only [if_true, List.map_cons, List.sum_cons]
      omega
    · have hb : ((amap i).result_type == c) = false := by simp [h]
      rw [if_neg (fun hh => h hh.symm), List.filter_cons, hb]
      simp only [Bool.false_eq_true, if_false]
      omega

/-- C10: `calculate_result` treats the answer-id list as a multiset — the
accumulated score of every category is the sum of the weights of all
occurrences (with multiplicity) of answers tagged with it, and the same
answer id listed three times contributes its weight three times to the
returned total. -/
theorem calcScores_counts_multiplicity (amap : Nat → Answer) (ids : List Nat)
    (c : String) :
    scoreVal (calcScores amap ids) c
      = ((ids.filter (fun i => (amap i).result_type == c)).map
          (fun i => (amap i).weight)).sum ∧
    calculate_result [[⟨1, "gryffindor", 2⟩]] [1, 1, 1] = .ok ("gryffindor", 6) := by
  constructor
  · simpa [scoreVal] using calcScores_foldl_val amap ids [] c
  · rfl

/-- The two-category scenario quiz of the spec: three questions, each with
a gryffindor and a slytherin answer of weight 2. -/
def hogwartsQuiz : List (List Answer) :=
  [[⟨1, "gryffindor", 2⟩, ⟨2, "slytherin", 2⟩],
   [⟨3, "gryffindor", 2⟩, ⟨4, "slytherin", 2⟩],
   [⟨5, "gryffindor", 2⟩, ⟨6, "slytherin", 2⟩]]

/-- C8: on a valid non-empty answer set, `calculate_result` returns an
entry of the accumulated scores dict — the category paired with its
accumulated weight — that bounds every accumulated weight, all categories
accumulated before it being strictly smaller (the first encountered wins
ties); the all-gryffindor scenario yields `("gryffindor", 6)`. -/
theorem calculate_result_max_first (questions : List (List Answer))
    (answer_ids : List Nat) (hne : answer_ids ≠ [])
    (hvalid : ∀ i ∈ answer_ids, (answer_map questions.flatten i).isSome = true) :
    (∃ c s l₁ l₂,
      calculate_result questions answer_ids = .ok (c, s) ∧
      calcScores (amapOf questions) answer_ids = l₁ ++ (c, s) :: l₂ ∧
      (∀ e ∈ calcScores (amapOf questions) answer_ids, e.2 ≤ s) ∧
      (∀ e ∈ l₁, e.2 < s)) ∧
    calculate_result hogwartsQuiz [1, 3, 5] = .ok ("gryffindor", 6) := by
  constructor
  · have hany : answer_ids.any (fun i => (answer_map questions.flatten i).isNone) = false := by
      rw [List.any_eq_false]
      intro i hi
      simp [Option.isNone_iff_eq_none]
      exact Option.isSome_iff_ne_none.mp (hvalid i hi)
    have hsc := calcScores_ne_nil (amapOf questions) answer_ids hne
    obtain ⟨e, rest, hrest⟩ := List.exists_cons_of_ne_nil hsc
    have hmax : maxEntry (calcScores (amapOf questions) answer_ids)
        = some (maxFold e rest) := by
      rw [hrest]
      rfl
    obtain ⟨h1, h2, h3⟩ := maxFold_spec rest e
    rcases h3 with heq | ⟨l₁, l₂, hsplit, hlt, hacclt⟩
    · refine ⟨(maxFold e rest).1, (maxFold e rest).2, [], rest, ?_, ?_, ?_, by simp⟩
      · simp [calculate_result, hany, hmax]
      · rw [hrest, heq]
        simp
      · intro x hx
        rw [hrest] at hx
        rcases List.mem_cons.mp hx with rfl | hx
        · exact h2
        · exact h1 x hx
    · refine ⟨(maxFold e rest).1, (maxFold e rest).2, e :: l₁, l₂, ?_, ?_, ?_, ?_⟩
      · simp [calculate_result, hany, hmax]
      · rw [hrest]
        exact congrArg (List.cons e) hsplit
      · intro x hx
        rw [hrest] at hx
        rcases List.mem_cons.mp hx with rfl | hx
        · exact h2
        · exact h1 x hx
      · intro x hx
        rcases List.mem_cons.mp hx with rfl | hx
        · exact hacclt
        · exact hlt x hx
  · rfl

/-- Witness for `calculate_result_max_first` at the spec's scenario quiz. -/
theorem calculate_result_max_first_witness :
    ∃ c s l₁ l₂,
      calculate_result hogwartsQuiz [1, 3, 5] = .ok (c, s) ∧
      calcScores (amapOf hogwartsQuiz) [1, 3, 5] = l₁ ++ (c, s) :: l₂ ∧
      (∀ e ∈ calcScores (amapOf hogwartsQuiz) [1, 3, 5], e.2 ≤ s) ∧
      (∀ e ∈ l₁, e.2 < s) :=
  (calculate_result_max_first hogwartsQuiz [1, 3, 5] (by decide) (by decide)).1

/-! ## C9: at most one metadata record per result, never replaced -/

/-- The `nft_metadata` rows of one quiz result across one mint attempt
(`mint_nft` step 5): the attempt sees whether a row already exists — its
unique constraint on `result_id` (result.py lines 104-109) makes the
unconditional insert fail in that case — and appends the row it manages to
persist. Rows are never updated: no code path mutates an `NFTMetadata`
object after creation. -/
def runAttempt (rid uid : Nat) (tbl : List NFTMetadataRow) (env : MintEnv) :
    List NFTMetadataRow :=
  match (mint_nft env rid uid (!tbl.isEmpty)).metaInserted with
  | some m => tbl ++ [m]
  | none => tbl

/-- A sequence of mint attempts (initial try and any retries) against the
metadata rows of one result. -/
def runAttempts (rid uid : Nat) (tbl : List NFTMetadataRow)
    (envs : List MintEnv) : List NFTMetadataRow :=
  envs.foldl (runAttempt rid uid) tbl

/-- When a metadata record already exists, no mint attempt persists a new
one — the unique-constraint violation aborts the attempt first. -/
theorem mint_metaExists_none (env : MintEnv) (rid uid : Nat) :
    (mint_nft env rid uid true).metaInserted = none := by
  rcases env with ⟨img, upl, valid, upj, wh, we, addr, mn, md⟩
  cases img <;> cases upl <;> cases upj <;> cases valid <;>
    simp [mint_nft, mintFail]

/-- C9: starting from at most one metadata record for a result, any
sequence of mint attempts (including retries that reach the metadata step)
leaves at most one record, and an existing record is never mutated or
replaced — a fresh record can only ever be persisted when none exists
yet. -/
theorem nftMetadata_at_most_once (rid uid : Nat) (envs : List MintEnv)
    (tbl : List NFTMetadataRow) (h1 : tbl.length ≤ 1) :
    (runAttempts rid uid tbl envs).length ≤ 1 ∧
    (tbl ≠ [] → runAttempts rid uid tbl envs = tbl) := by
  induction envs generalizing tbl with
  | nil => exact ⟨h1, fun _ => rfl⟩
  | cons env rest ih =>
    have hstep : ∀ t : List NFTMetadataRow, t ≠ [] → runAttempt rid uid t env = t := by
      intro t ht
      have hemp : (!t.isEmpty) = true := by
        simp [List.isEmpty_iff, ht]
      unfold runAttempt
      rw [hemp, mint_metaExists_none]
    by_cases htbl : tbl = []
    · subst htbl
      have hlen : (runAttempt rid uid [] env).length ≤ 1 := by
        unfold runAttempt
        cases hmi : (mint_nft env rid uid (!List.isEmpty [])).metaInserted <;> simp
      constructor
      · show (List.foldl (runAttempt rid uid) (runAttempt rid uid [] env) rest).length ≤ 1
        exact (ih _ hlen).1
      · intro hne
        exact absurd rfl hne
    · constructor
      · show (List.foldl (runAttempt rid uid) (runAttempt rid uid tbl env) rest).length ≤ 1
        rw [hstep tbl htbl]
        exact (ih tbl h1).1
      · intro _
        show List.foldl (runAttempt rid uid) (runAttempt rid uid tbl env) rest = tbl
        rw [hstep tbl htbl]
        exact (ih tbl h1).2 htbl

/-- A persisted metadata record. -/
def sampleMeta : NFTMetadataRow :=
  { result_id := 3, name := "Test NFT", description := "desc"
    image_url := "u", metadata_url := "v" }

/-- Witness for `nftMetadata_at_most_once`: two successful-environment
attempts starting from no record and from one record. -/
theorem nftMetadata_at_most_once_witness :
    (runAttempts 3 2 [] [okEnv, okEnv]).length ≤ 1 ∧
    runAttempts 3 2 [sampleMeta] [okEnv, okEnv] = [sampleMeta] :=
  ⟨(nftMetadata_at_most_once 3 2 [okEnv, okEnv] [] (by decide)).1,
    (nftMetadata_at_most_once 3 2 [okEnv, okEnv] [sampleMeta] (by decide)).2
      (by decide)⟩

/-! ## C2: the payment-creation race -/

/-- Invariant tying the payments table to the in-flight calls: the table
only ever grows by appended rows, at most one active payment for the
result exists (the partial unique index), every finished call returned
exactly that payment, and no call ever reached the re-raise branch. -/
def PayInv (db₀ : PaymentDB) (rid : Nat) (c : PaymentDB × List CallPhase) : Prop :=
  (∃ t, c.1.payments = db₀.payments ++ t) ∧
  (activePays c.1 rid).length ≤ 1 ∧
  (∀ p, CallPhase.done p ∈ c.2 → activePays c.1 rid = [p]) ∧
  CallPhase.raised ∉ c.2

/-- A successful active-payment query pins down the whole active set when
the uniqueness bound holds. -/
theorem activePays_of_query (db : PaymentDB) (rid : Nat) (p : Payment)
    (hlen : (activePays db rid).length ≤ 1) (hq : queryActive db rid = some p) :
    activePays db rid = [p] := by
  unfold queryActive at hq
  cases hap : activePays db rid with
  | nil =>
    rw [hap] at hq
    simp at hq
  | cons x t =>
    rw [hap] at hq hlen
    simp at hq
    subst hq
    cases t with
    | nil => rfl
    | cons y t2 => simp at hlen

/-- The row `create_mint_payment` constructs is active for its result. -/
theorem isActiveFor_newPayment (db : PaymentDB) (uid rid : Nat) :
    isActiveFor rid (newPayment db uid rid) = true := by
  simp [isActiveFor, newPayment]

/-- One scheduler step preserves the invariant. -/
theorem payInv_step (db₀ : PaymentDB) (uid rid : Nat)
    (c c' : PaymentDB × List CallPhase)
    (hstep : PayStep uid rid c c') (hinv : PayInv db₀ rid c) :
    PayInv db₀ rid c' := by
  cases hstep with
  | mk db phases i ph hi =>
    obtain ⟨⟨t0, happ⟩, hlen, hdone, hraise⟩ := hinv
    cases ph with
    | start =>
      cases hq : queryActive db rid with
      | some p =>
        have hsc : stepCall uid rid db .start = (db, .done p) := by
          simp [stepCall, hq]
        rw [hsc]
        have hap := activePays_of_query db rid p hlen hq
        refine ⟨⟨t0, happ⟩, hlen, ?_, ?_⟩
        · intro q hq2
          rcases List.mem_or_eq_of_mem_set hq2 with hmem | heq
          · exact hdone q hmem
          · injection heq with h
            subst h
            exact hap
        · intro hr
          rcases List.mem_or_eq_of_mem_set hr with hmem | heq
          · exact hraise hmem
          · cases heq
      | none =>
        have hsc : stepCall uid rid db .start = (db, .readyInsert) := by
          simp [stepCall, hq]
        rw [hsc]
        refine ⟨⟨t0, happ⟩, hlen, ?_, ?_⟩
        · intro q hq2
          rcases List.mem_or_eq_of_mem_set hq2 with hmem | heq
          · exact hdone q hmem
          · cases heq
        · intro hr
          rcases List.mem_or_eq_of_mem_set hr with hmem | heq
          · exact hraise hmem
          · cases heq
    | readyInsert =>
      by_cases hemp : (activePays db rid).isEmpty = true
      · have hnil : activePays db rid = [] := List.isEmpty_iff.mp hemp
        have hsc : stepCall uid rid db .readyInsert =
            (⟨db.payments ++ [newPayment db uid rid], db.nextId + 1⟩,
              .done (newPayment db uid rid)) := by
          simp [stepCall, tryInsert, hemp]
        rw [hsc]
        have hactive : activePays ⟨db.payments ++ [newPayment db uid rid], db.nextId + 1⟩ rid
            = [newPayment db uid rid] := by
          unfold activePays at hnil ⊢
          rw [List.filter_append, hnil, List.nil_append]
          simp [isActiveFor_newPayment db uid rid]
        have hnodone : ∀ q, CallPhase.done q ∉ phases := by
          intro q hq2
          have := hdone q hq2
          rw [hnil] at this
          cases this
        refine ⟨⟨t0 ++ [newPayment db uid rid], by rw [happ, List.append_assoc]⟩,
          by rw [hactive]; simp, ?_, ?_⟩
        · intro q hq2
          rcases List.mem_or_eq_of_mem_set hq2 with hmem | heq
          · exact absurd hmem (hnodone q)
          · injection heq with h
            subst h
            exact hactive
        · intro hr
          rcases List.mem_or_eq_of_mem_set hr with hmem | heq
          · exact hraise hmem
          · cases heq
      · have hne : activePays db rid ≠ [] := by
          intro h
          exact hemp (List.isEmpty_iff.mpr h)
        obtain ⟨x, tl, hxt⟩ := List.exists_cons_of_ne_nil hne
        have hq : queryActive db rid = some x := by
          unfold queryActive
          rw [hxt]
          rfl
        have hap : activePays db rid = [x] := activePays_of_query db rid x hlen hq
        have hsc : stepCall uid rid db .readyInsert = (db, .done x) := by
          simp [stepCall, tryInsert, hemp, hq]
        rw [hsc]
        refine ⟨⟨t0, happ⟩, hlen, ?_, ?_⟩
        · intro q hq2
          rcases List.mem_or_eq_of_mem_set hq2 with hmem | heq
          · exact hdone q hmem
          · injection heq with h
            subst h
            exact hap
        · intro hr
          rcases List.mem_or_eq_of_mem_set hr with hmem | heq
          · exact hraise hmem
          · cases heq
    | raised =>
      exact absurd (List.get?_mem hi) hraise
    | done p =>
      have hsc : stepCall uid rid db (.done p) = (db, .done p) := rfl
      rw [hsc]
      refine ⟨⟨t0, happ⟩, hlen, ?_, ?_⟩
      · intro q hq2
        rcases List.mem_or_eq_of_mem_set hq2 with hmem | heq
        · exact hdone q hmem
        · injection heq with h
          subst h
          exact hdone q (List.get?_mem hi)
      · intro hr
        rcases List.mem_or_eq_of_mem_set hr with hmem | heq
        · exact hraise hmem
        · cases heq

/-- The invariant holds along any interleaving. -/
theorem payInv_reaches (db₀ : PaymentDB) (uid rid : Nat)
    (c c' : PaymentDB × List CallPhase)
    (h : PayReaches uid rid c c') (hinv : PayInv db₀ rid c) :
    PayInv db₀ rid c' := by
  induction h with
  | refl => exact hinv
  | tail _ hstep ih => exact payInv_step db₀ uid rid _ _ hstep ih

/-- C2: starting `n` concurrent `create_mint_payment` calls for one result
against a table satisfying the partial-unique-index invariant, any
interleaving in which all calls have finished leaves exactly one active
payment for that result, every call has returned that same payment (same
id), no call surfaced an error, and a pre-existing active payment is
returned unchanged as that winner. -/
theorem create_mint_payment_race_safe (uid rid : Nat) (db₀ : PaymentDB)
    (h₀ : (activePays db₀ rid).length ≤ 1)
    (db : PaymentDB) (phases : List CallPhase) (n : Nat)
    (hr : PayReaches uid rid (db₀, List.replicate n CallPhase.start) (db, phases))
    (hdone : ∀ ph ∈ phases, ∃ p, ph = CallPhase.done p)
    (hne : phases ≠ []) :
    ∃ p, activePays db rid = [p] ∧
      (∀ ph ∈ phases, ph = CallPhase.done p) ∧
      (∀ q, activePays db₀ rid = [q] → p = q) := by
  have hinv₀ : PayInv db₀ rid (db₀, List.replicate n CallPhase.start) := by
    refine ⟨⟨[], by simp⟩, h₀, ?_, ?_⟩
    · intro q hq
      cases List.eq_of_mem_replicate hq
    · intro hr2
      cases List.eq_of_mem_replicate hr2
  have hinv := payInv_reaches db₀ uid rid _ _ hr hinv₀
  obtain ⟨⟨t, happ⟩, hlen, hdone2, _⟩ := hinv
  obtain ⟨ph0, hph0⟩ := List.exists_mem_of_ne_nil phases hne
  obtain ⟨p, rfl⟩ := hdone ph0 hph0
  have hap : activePays db rid = [p] := hdone2 p hph0
  refine ⟨p, hap, ?_, ?_⟩
  · intro ph hph
    obtain ⟨q, rfl⟩ := hdone ph hph
    have hq := hdone2 q hph
    rw [hap] at hq
    rw [(List.cons.inj hq).1]
  · intro q hq0
    have hsplit : activePays db rid = q :: t.filter (isActiveFor rid) := by
      have hq0' : db₀.payments.filter (isActiveFor rid) = [q] := hq0
      show db.payments.filter (isActiveFor rid) = _
      rw [happ, List.filter_append, hq0']
      rfl
    rw [hap] at hsplit
    exact (List.cons.inj hsplit).1

/-- Witness for `create_mint_payment_race_safe`: two calls racing on an
empty table — both pass the pre-check, the first insert wins, the second
hits the unique index, re-queries and returns the winner. -/
theorem create_mint_payment_race_witness :
    ∃ p, activePays ⟨[newPayment ⟨[], 1⟩ 5 7], 2⟩ 7 = [p] ∧
      (∀ ph ∈ [CallPhase.done (newPayment ⟨[], 1⟩ 5 7),
          CallPhase.done (newPayment ⟨[], 1⟩ 5 7)], ph = CallPhase.done p) ∧
      (∀ q, activePays ⟨[], 1⟩ 7 = [q] → p = q) := by
  have h1 : PayStep 5 7 (⟨[], 1⟩, [CallPhase.start, CallPhase.start])
      (⟨[], 1⟩, [CallPhase.readyInsert, CallPhase.start]) :=
    PayStep.mk ⟨[], 1⟩ [CallPhase.start, CallPhase.start] 0 .start rfl
  have h2 : PayStep 5 7 (⟨[], 1⟩, [CallPhase.readyInsert, CallPhase.start])
      (⟨[], 1⟩, [CallPhase.readyInsert, CallPhase.readyInsert]) :=
    PayStep.mk ⟨[], 1⟩ [CallPhase.readyInsert, CallPhase.start] 1 .start rfl
  have h3 : PayStep 5 7 (⟨[], 1⟩, [CallPhase.readyInsert, CallPhase.readyInsert])
      (⟨[newPayment ⟨[], 1⟩ 5 7], 2⟩,
        [CallPhase.done (newPayment ⟨[], 1⟩ 5 7), CallPhase.readyInsert]) :=
    PayStep.mk ⟨[], 1⟩ [CallPhase.readyInsert, CallPhase.readyInsert] 0 .readyInsert rfl
  have h4 : PayStep 5 7
      (⟨[newPayment ⟨[], 1⟩ 5 7], 2⟩,
        [CallPhase.done (newPayment ⟨[], 1⟩ 5 7), CallPhase.readyInsert])
      (⟨[newPayment ⟨[], 1⟩ 5 7], 2⟩,
        [CallPhase.done (newPayment ⟨[], 1⟩ 5 7),
          CallPhase.done (newPayment ⟨[], 1⟩ 5 7)]) :=
    PayStep.mk ⟨[newPayment ⟨[], 1⟩ 5 7], 2⟩
      [CallPhase.done (newPayment ⟨[], 1⟩ 5 7), CallPhase.readyInsert] 1 .readyInsert rfl
  have hr : PayReaches 5 7 (⟨[], 1⟩, List.replicate 2 CallPhase.start)
      (⟨[newPayment ⟨[], 1⟩ 5 7], 2⟩,
        [CallPhase.done (newPayment ⟨[], 1⟩ 5 7),
          CallPhase.done (newPayment ⟨[], 1⟩ 5 7)]) :=
    Relation.ReflTransGen.tail
      (Relation.ReflTransGen.tail
        (Relation.ReflTransGen.tail (Relation.ReflTransGen.single h1) h2) h3) h4
  refine create_mint_payment_race_safe 5 7 ⟨[], 1⟩ (by decide) _ _ 2 hr ?_ (by decide)
  intro ph hph
  rcases List.mem_cons.mp hph with rfl | hph
  · exact ⟨_, rfl⟩
  · rcases List.mem_cons.mp hph with rfl | hph
    · exact ⟨_, rfl⟩
    · cases hph

end TgMini
